import Mathlib

/-!
Shallow embedding of the clox scanner, compiler, chunk format and the
parts of the virtual machine that the verified properties below are
about. Every definition is translated from the corresponding C source
file of the repository (scanner.c, compiler.c, chunk.c, table.c,
object.c, value.c, vm.c); loops are written with an explicit fuel
argument so that each definition is structurally recursive and computes
by kernel reduction. C strings are modelled as `List Char` with the
terminating NUL represented by the end of the list; machine byte values
are `Nat` with `% 256` wherever the C code casts to `uint8_t`.
-/

namespace Clox

/-- TokenType of scanner.h: the token kinds produced by the scanner, in
declaration order. -/
inductive TokenType where
  | LEFT_PAREN | RIGHT_PAREN | LEFT_BRACE | RIGHT_BRACE
  | COMMA | DOT | MINUS | PLUS | SEMICOLON | SLASH | STAR
  | BANG | BANG_EQUAL | EQUAL | EQUAL_EQUAL
  | GREATER | GREATER_EQUAL | LESS | LESS_EQUAL
  | IDENTIFIER | STRING | NUMBER
  | AND | CLASS | ELSE | FALSE | FOR | FUN | IF | NIL | OR
  | PRINT | RETURN | SUPER | THIS | TRUE | VAR | WHILE
  | ERROR | EOF
deriving DecidableEq, Repr

/-- Token: `type`, the lexeme (for TOKEN_ERROR the static message that
`start` points at in the C code), and the 1-based source line. -/
structure Token where
  type : TokenType
  text : String
  line : Nat
deriving DecidableEq, Repr

/-- Scanner state: the borrowed source buffer and the cursors `start`,
`current` (indices into it) and `line`, as in scanner.c. -/
structure Scanner where
  source : List Char
  start : Nat
  current : Nat
  line : Nat
deriving DecidableEq, Repr

namespace Scanner

/-- The NUL terminator of the C source buffer. -/
def nulChar : Char := Char.ofNat 0

/-- is_at_end of scanner.c: `*scanner.current == '\0'`, i.e. the cursor
reached the end of the buffer. -/
def is_at_end (s : Scanner) : Bool := s.source.length ≤ s.current

/-- peek of scanner.c: the character under the cursor ('\0' at the end). -/
def peek (s : Scanner) : Char := s.source.getD s.current nulChar

/-- peek_next of scanner.c. -/
def peek_next (s : Scanner) : Char :=
  if is_at_end s then nulChar else s.source.getD (s.current + 1) nulChar

/-- advance of scanner.c: return the current character and move past it. -/
def advance (s : Scanner) : Char × Scanner :=
  (peek s, { s with current := s.current + 1 })

/-- match of scanner.c (renamed: `match` is a Lean keyword). -/
def match_char (expected : Char) (s : Scanner) : Bool × Scanner :=
  if is_at_end s then (false, s)
  else if peek s ≠ expected then (false, s)
  else (true, { s with current := s.current + 1 })

/-- The lexeme between `start` and `current`, as make_token reads it. -/
def lexeme (s : Scanner) : List Char :=
  (s.source.drop s.start).take (s.current - s.start)

/-- make_token of scanner.c. -/
def make_token (tt : TokenType) (s : Scanner) : Token :=
  { type := tt, text := String.mk (lexeme s), line := s.line }

/-- error_token of scanner.c: a TOKEN_ERROR whose text is the static
message. -/
def error_token (message : String) (s : Scanner) : Token :=
  { type := .ERROR, text := message, line := s.line }

/-- The inner loop of skip_whitespace's comment case:
`while (peek() != '\n' and not is_at_end()) advance();`. -/
def skip_comment : Nat → Scanner → Scanner
  | 0, s => s
  | fuel + 1, s =>
    if peek s ≠ '\n' ∧ ¬ is_at_end s then skip_comment fuel (advance s).2 else s

/-- skip_whitespace of scanner.c. Note the C switch: the `'/'` case, after
consuming a `//` comment, has no `break` and falls through to
`default: return;`, so the function returns with the cursor still on the
terminating newline. -/
def skip_whitespace : Nat → Scanner → Scanner
  | 0, s => s
  | fuel + 1, s =>
    let c := peek s
    if c = ' ' ∨ c = '\r' ∨ c = '\t' then
      skip_whitespace fuel (advance s).2
    else if c = '\n' then
      skip_whitespace fuel (advance { s with line := s.line + 1 }).2
    else if c = '/' then
      if peek_next s = '/' then
        skip_comment fuel s
      else s
    else s

/-- The loop of string(): consume until the closing quote or the end of
the buffer, counting newlines. -/
def string_loop : Nat → Scanner → Scanner
  | 0, s => s
  | fuel + 1, s =>
    if peek s ≠ '"' ∧ ¬ is_at_end s then
      let s := if peek s = '\n' then { s with line := s.line + 1 } else s
      string_loop fuel (advance s).2
    else s

/-- string() of scanner.c (renamed to avoid the builtin String). -/
def scan_string (s : Scanner) : Token × Scanner :=
  let s := string_loop (s.source.length + 1 - s.current) s
  if is_at_end s then (error_token "Unterminated string literal." s, s)
  else
    let s := (advance s).2
    (make_token .STRING s, s)

/-- is_digit of scanner.c. -/
def is_digit (c : Char) : Bool := '0' ≤ c ∧ c ≤ '9'

/-- is_alpha of scanner.c. -/
def is_alpha (c : Char) : Bool :=
  ('a' ≤ c ∧ c ≤ 'z') ∨ ('A' ≤ c ∧ c ≤ 'Z') ∨ c = '_'

/-- A `while (is_digit(peek())) advance();` loop of number(). -/
def digits_loop : Nat → Scanner → Scanner
  | 0, s => s
  | fuel + 1, s =>
    if is_digit (peek s) then digits_loop fuel (advance s).2 else s

/-- number() of scanner.c. -/
def scan_number (s : Scanner) : Token × Scanner :=
  let s := digits_loop (s.source.length + 1 - s.current) s
  let s :=
    if peek s = '.' ∧ is_digit (peek_next s) then
      digits_loop (s.source.length + 1 - s.current) (advance s).2
    else s
  (make_token .NUMBER s, s)

/-- check_keyword of scanner.c: compare the tail of the lexeme starting
at offset `st` with `rest` (memcmp over `len` bytes after the length
test). -/
def check_keyword (s : Scanner) (st len : Nat) (rest : String)
    (tt : TokenType) : TokenType :=
  if s.current - s.start = st + len ∧
      (s.source.drop (s.start + st)).take len = rest.toList then tt
  else .IDENTIFIER

/-- identifier_type of scanner.c: the keyword trie over the lexeme. -/
def identifier_type (s : Scanner) : TokenType :=
  let c0 := s.source.getD s.start nulChar
  if c0 = 'a' then check_keyword s 1 2 "nd" .AND
  else if c0 = 'c' then check_keyword s 1 4 "lass" .CLASS
  else if c0 = 'e' then check_keyword s 1 3 "lse" .ELSE
  else if c0 = 'f' then
    if s.current - s.start > 1 then
      let c1 := s.source.getD (s.start + 1) nulChar
      if c1 = 'a' then check_keyword s 2 3 "lse" .FALSE
      else if c1 = 'o' then check_keyword s 2 1 "r" .FOR
      else if c1 = 'u' then check_keyword s 2 1 "n" .FUN
      else .IDENTIFIER
    else .IDENTIFIER
  else if c0 = 'i' then check_keyword s 1 1 "f" .IF
  else if c0 = 'n' then check_keyword s 1 2 "il" .NIL
  else if c0 = 'o' then check_keyword s 1 1 "r" .OR
  else if c0 = 'p' then check_keyword s 1 4 "rint" .PRINT
  else if c0 = 'r' then check_keyword s 1 5 "eturn" .RETURN
  else if c0 = 's' then check_keyword s 1 4 "uper" .SUPER
  else if c0 = 't' then
    if s.current - s.start > 1 then
      let c1 := s.source.getD (s.start + 1) nulChar
      if c1 = 'h' then check_keyword s 2 2 "is" .THIS
      else if c1 = 'r' then check_keyword s 2 2 "ue" .TRUE
      else .IDENTIFIER
    else .IDENTIFIER
  else if c0 = 'v' then check_keyword s 1 2 "ar" .VAR
  else if c0 = 'w' then check_keyword s 1 4 "hile" .WHILE
  else .IDENTIFIER

/-- The loop of identifier(): consume alphanumerics. -/
def ident_loop : Nat → Scanner → Scanner
  | 0, s => s
  | fuel + 1, s =>
    if is_alpha (peek s) ∨ is_digit (peek s) then
      ident_loop fuel (advance s).2
    else s

/-- identifier() of scanner.c. -/
def scan_identifier (s : Scanner) : Token × Scanner :=
  let s := ident_loop (s.source.length + 1 - s.current) s
  (make_token (identifier_type s) s, s)

/-- scan_token of scanner.c: skip whitespace and comments, then classify
the next lexeme. -/
def scan_token (s0 : Scanner) : Token × Scanner :=
  let s := skip_whitespace (s0.source.length + 1 - s0.current) s0
  let s := { s with start := s.current }
  if is_at_end s then (make_token .EOF s, s)
  else
    let (c, s) := advance s
    if is_alpha c then scan_identifier s
    else if is_digit c then scan_number s
    else if c = '(' then (make_token .LEFT_PAREN s, s)
    else if c = ')' then (make_token .RIGHT_PAREN s, s)
    else if c = '{' then (make_token .LEFT_BRACE s, s)
    else if c = '}' then (make_token .RIGHT_BRACE s, s)
    else if c = ';' then (make_token .SEMICOLON s, s)
    else if c = ',' then (make_token .COMMA s, s)
    else if c = '.' then (make_token .DOT s, s)
    else if c = '-' then (make_token .MINUS s, s)
    else if c = '+' then (make_token .PLUS s, s)
    else if c = '/' then (make_token .SLASH s, s)
    else if c = '*' then (make_token .STAR s, s)
    else if c = '!' then
      let (m, s) := match_char '=' s
      (make_token (if m then .BANG_EQUAL else .BANG) s, s)
    else if c = '=' then
      let (m, s) := match_char '=' s
      (make_token (if m then .EQUAL_EQUAL else .EQUAL) s, s)
    else if c = '<' then
      let (m, s) := match_char '=' s
      (make_token (if m then .LESS_EQUAL else .LESS) s, s)
    else if c = '>' then
      let (m, s) := match_char '=' s
      (make_token (if m then .GREATER_EQUAL else .GREATER) s, s)
    else if c = '"' then scan_string s
    else (error_token "Unexpected character." s, s)

/-- init_scanner of scanner.c. -/
def init_scanner (source : String) : Scanner :=
  { source := source.toList, start := 0, current := 0, line := 1 }

end Scanner

/-!
The bytecode chunk format of chunk.h / chunk.c. Opcode byte values follow
the OpCode enum of chunk.h in declaration order.
-/

def OP_CONSTANT : Nat := 0
def OP_CONSTANT_LONG : Nat := 1
def OP_NIL : Nat := 2
def OP_TRUE : Nat := 3
def OP_FALSE : Nat := 4
def OP_POP : Nat := 5
def OP_GET_LOCAL : Nat := 6
def OP_SET_LOCAL : Nat := 7
def OP_GET_GLOBAL : Nat := 8
def OP_DEFINE_GLOBAL : Nat := 9
def OP_SET_GLOBAL : Nat := 10
def OP_EQUAL : Nat := 11
def OP_GREATER : Nat := 12
def OP_LESS : Nat := 13
def OP_NEGATE : Nat := 14
def OP_PRINT : Nat := 15
def OP_JUMP : Nat := 16
def OP_JUMP_IF_FALSE : Nat := 17
def OP_LOOP : Nat := 18
def OP_ADD : Nat := 19
def OP_SUBTRACT : Nat := 20
def OP_MULTIPLY : Nat := 21
def OP_DIVIDE : Nat := 22
def OP_NOT : Nat := 23
def OP_CALL : Nat := 24
def OP_CLOSURE : Nat := 25
def OP_GET_UPVALUE : Nat := 26
def OP_SET_UPVALUE : Nat := 27
def OP_CLOSE_UPVALUE : Nat := 28
def OP_RETURN : Nat := 29

/-- A constant-pool Value as the compiler creates them: NUMBER_VAL of
strtod(lexeme) — the IEEE-754 payload is represented by the literal's
text, which determines it and is all the proved properties inspect — or
OBJ_VAL of a copied string. -/
inductive CValue where
  | number (lexeme : String)
  | str (s : String)
deriving DecidableEq, Repr

/-- Chunk of chunk.h: bytecode, per-byte source lines, constant pool. -/
structure Chunk where
  code : List Nat
  lines : List Nat
  constants : List CValue
deriving DecidableEq, Repr

/-- init_chunk of chunk.c. -/
def init_chunk : Chunk := { code := [], lines := [], constants := [] }

/-- write_chunk of chunk.c: append a byte and its line in lockstep (the
capacity doubling is memory management without observable effect on the
contents). -/
def write_chunk (chunk : Chunk) (byte : Nat) (line : Nat) : Chunk :=
  { chunk with code := chunk.code ++ [byte], lines := chunk.lines ++ [line] }

/-- add_constant of chunk.c: append to the constant pool and return
`constants.count - 1`. -/
def add_constant (chunk : Chunk) (value : CValue) : Nat × Chunk :=
  let constants := chunk.constants ++ [value]
  (constants.length - 1, { chunk with constants := constants })

/-- write_constant of chunk.c: one-byte OP_CONSTANT when the index fits
in a byte, else OP_CONSTANT_LONG with three big-endian bytes (each
`% 256` is the C cast to uint8_t). -/
def write_constant (chunk : Chunk) (value : CValue) (line : Nat) : Chunk :=
  let (constant_index, chunk) := add_constant chunk value
  if constant_index ≤ 255 then
    write_chunk (write_chunk chunk OP_CONSTANT line) (constant_index % 256) line
  else
    let chunk := write_chunk chunk OP_CONSTANT_LONG line
    let chunk := write_chunk chunk ((constant_index >>> 16) % 256) line
    let chunk := write_chunk chunk ((constant_index >>> 8) % 256) line
    write_chunk chunk (constant_index % 256) line

/-!
The compiler of src/compiler.c (the statement/scope stage whose rules
table carries `and_`/`or_` and whose `compile(source, chunk)` returns a
bool): parser state, scope-tracking Compiler state, and the Pratt
parser/emitter itself.
-/

/-- Precedence of compiler.c, lowest to highest. -/
def PREC_NONE : Nat := 0
def PREC_ASSIGNMENT : Nat := 1
def PREC_OR : Nat := 2
def PREC_AND : Nat := 3
def PREC_EQUALITY : Nat := 4
def PREC_COMPARISON : Nat := 5
def PREC_TERM : Nat := 6
def PREC_FACTOR : Nat := 7
def PREC_UNARY : Nat := 8
def PREC_CALL : Nat := 9
def PREC_PRIMARY : Nat := 10

/-- Parser of compiler.c. -/
structure Parser where
  current : Token
  previous : Token
  had_error : Bool
  panic_mode : Bool
deriving DecidableEq, Repr

/-- Local of compiler.c: `depth = -1` marks "declared, uninitialised". -/
structure Local where
  name : Token
  depth : Int
deriving DecidableEq, Repr

/-- Compiler of compiler.c: the scope stack (`locals`/`local_count` as a
list whose last element is the innermost local) and the scope depth. -/
structure Compiler where
  locals : List Local
  scope_depth : Int
deriving DecidableEq, Repr

/-- The compiler's mutable globals bundled into one state: scanner,
parser, the chunk being compiled, the Compiler, and — for the theorems
about diagnostics — the list of messages error_at has written to
stderr. -/
structure CState where
  scanner : Scanner
  parser : Parser
  chunk : Chunk
  compiler : Compiler
  errors : List String
deriving DecidableEq, Repr

/-- error_at of compiler.c: in panic mode nothing is reported; otherwise
enter panic mode, report the message and set had_error. -/
def error_at (_token : Token) (message : String) (st : CState) : CState :=
  if st.parser.panic_mode then st
  else
    { st with
      parser := { st.parser with panic_mode := true, had_error := true },
      errors := st.errors ++ [message] }

/-- error of compiler.c: report at the previous token. -/
def error (message : String) (st : CState) : CState :=
  error_at st.parser.previous message st

/-- error_at_current of compiler.c. -/
def error_at_current (message : String) (st : CState) : CState :=
  error_at st.parser.current message st

/-- The loop of the parser's advance(): pull tokens until one is not
TOKEN_ERROR, reporting each error token's message. -/
def advance_loop : Nat → CState → CState
  | 0, st => st
  | fuel + 1, st =>
    let (tok, sc) := Scanner.scan_token st.scanner
    let st := { st with scanner := sc, parser := { st.parser with current := tok } }
    if tok.type = .ERROR then advance_loop fuel (error_at_current tok.text st)
    else st

/-- advance of compiler.c (the parser's, not the scanner's). -/
def advance (st : CState) : CState :=
  let st := { st with parser := { st.parser with previous := st.parser.current } }
  advance_loop (st.scanner.source.length + 1 - st.scanner.current) st

/-- consume of compiler.c. -/
def consume (type_ : TokenType) (message : String) (st : CState) : CState :=
  if st.parser.current.type = type_ then advance st
  else error_at_current message st

/-- check of compiler.c. -/
def check (type_ : TokenType) (st : CState) : Bool :=
  st.parser.current.type = type_

/-- match of compiler.c (renamed: `match` is a Lean keyword). -/
def match_token (type_ : TokenType) (st : CState) : Bool × CState :=
  if ¬ check type_ st then (false, st) else (true, advance st)

/-- emit_byte of compiler.c: write to the current chunk at the previous
token's line. -/
def emit_byte (byte : Nat) (st : CState) : CState :=
  { st with chunk := write_chunk st.chunk byte st.parser.previous.line }

/-- emit_bytes of compiler.c. -/
def emit_bytes (byte1 byte2 : Nat) (st : CState) : CState :=
  emit_byte byte2 (emit_byte byte1 st)

/-- emit_loop of compiler.c: OP_LOOP with a 16-bit big-endian backward
offset, measured after the opcode byte. -/
def emit_loop (loop_start : Nat) (st : CState) : CState :=
  let st := emit_byte OP_LOOP st
  let offset := st.chunk.code.length - loop_start + 2
  let st := if offset > 65535 then error "Loop body too large." st else st
  emit_byte (offset % 256) (emit_byte ((offset >>> 8) % 256) st)

/-- emit_jump of compiler.c: the opcode and a 0xFFFF placeholder; returns
the offset of the placeholder. -/
def emit_jump (instruction : Nat) (st : CState) : Nat × CState :=
  let st := emit_byte 0xFF (emit_byte 0xFF (emit_byte instruction st))
  (st.chunk.code.length - 2, st)

/-- emit_return of compiler.c: this stage's epilogue is the single
OP_RETURN byte. -/
def emit_return (st : CState) : CState :=
  emit_byte OP_RETURN st

/-- make_constant of compiler.c. -/
def make_constant (value : CValue) (st : CState) : Nat × CState :=
  let (constant_index, chunk) := add_constant st.chunk value
  (constant_index, { st with chunk := chunk })

/-- emit_constant of compiler.c: same index encoding as write_constant. -/
def emit_constant (value : CValue) (st : CState) : CState :=
  let (constant_index, st) := make_constant value st
  if constant_index ≤ 255 then
    emit_bytes OP_CONSTANT (constant_index % 256) st
  else
    let st := emit_byte OP_CONSTANT_LONG st
    let st := emit_byte ((constant_index >>> 16) % 256) st
    let st := emit_byte ((constant_index >>> 8) % 256) st
    emit_byte (constant_index % 256) st

/-- patch_jump of compiler.c: back-patch a 16-bit big-endian distance
into the two placeholder bytes. -/
def patch_jump (offset : Nat) (st : CState) : CState :=
  let jump_distance := st.chunk.code.length - offset - 2
  let st := if jump_distance > 65535 then error "Too much code to jump over." st else st
  let code := st.chunk.code.set offset ((jump_distance >>> 8) % 256)
  let code := code.set (offset + 1) (jump_distance % 256)
  { st with chunk := { st.chunk with code := code } }

/-- end_compiler of compiler.c (the debug disassembly is compiled out). -/
def end_compiler (st : CState) : CState :=
  emit_return st

/-- begin_scope of compiler.c. -/
def begin_scope (st : CState) : CState :=
  { st with compiler := { st.compiler with scope_depth := st.compiler.scope_depth + 1 } }

/-- The pop loop of end_scope: drop locals deeper than the new scope
depth, one OP_POP each. -/
def end_scope_loop : Nat → CState → CState
  | 0, st => st
  | n + 1, st =>
    match st.compiler.locals.getLast? with
    | some l =>
      if l.depth > st.compiler.scope_depth then
        let st := emit_byte OP_POP st
        end_scope_loop n
          { st with compiler := { st.compiler with locals := st.compiler.locals.dropLast } }
      else st
    | none => st

/-- end_scope of compiler.c. -/
def end_scope (st : CState) : CState :=
  let st :=
    { st with compiler := { st.compiler with scope_depth := st.compiler.scope_depth - 1 } }
  end_scope_loop st.compiler.locals.length st

/-- identifiers_equal of compiler.c: same length and bytes. -/
def identifiers_equal (a b : Token) : Bool :=
  a.text = b.text

/-- identifier_constant of compiler.c: a string constant holding the
identifier's name; the result is cast to uint8_t (the source asserts the
index fits). -/
def identifier_constant (name : Token) (st : CState) : Nat × CState :=
  let (constant_index, st) := make_constant (.str name.text) st
  (constant_index % 256, st)

/-- The loop of resolve_local, from the innermost local outwards; the
pairs carry each local's slot index. -/
def resolve_local_go (name : Token) (st : CState) :
    List (Nat × Local) → Int × CState
  | [] => (-1, st)
  | (i, l) :: rest =>
    if identifiers_equal name l.name then
      if l.depth = -1 then
        (Int.ofNat i, error "Can't read local variable in its own initializer." st)
      else (Int.ofNat i, st)
    else resolve_local_go name st rest

/-- resolve_local of compiler.c. -/
def resolve_local (st : CState) (name : Token) : Int × CState :=
  resolve_local_go name st st.compiler.locals.enum.reverse

/-- add_local of compiler.c: UINT8_COUNT (256) locals at most; the new
local starts at the sentinel depth -1. -/
def add_local (name : Token) (st : CState) : CState :=
  if st.compiler.locals.length = 256 then
    error "Too many local variables in function." st
  else
    { st with compiler :=
        { st.compiler with locals := st.compiler.locals ++ [{ name := name, depth := -1 }] } }

/-- The scan of declare_variable over the current scope (from the
innermost local outwards, stopping at an initialised outer-scope
local). -/
def declare_variable_go (name : Token) (st : CState) : List Local → CState
  | [] => st
  | l :: rest =>
    if l.depth ≠ -1 ∧ l.depth < st.compiler.scope_depth then st
    else
      let st :=
        if identifiers_equal name l.name then
          error "Already a variable with this name in this scope." st
        else st
      declare_variable_go name st rest

/-- declare_variable of compiler.c: globals are not tracked; a local is
added after checking for a duplicate in the current scope. -/
def declare_variable (st : CState) : CState :=
  if st.compiler.scope_depth = 0 then st
  else
    let name := st.parser.previous
    let st := declare_variable_go name st st.compiler.locals.reverse
    add_local name st

/-- parse_variable of compiler.c. -/
def parse_variable (error_message : String) (st : CState) : Nat × CState :=
  let st := consume .IDENTIFIER error_message st
  let st := declare_variable st
  if st.compiler.scope_depth > 0 then (0, st)
  else identifier_constant st.parser.previous st

/-- mark_initialized of compiler.c: the innermost local gets the current
scope depth. -/
def mark_initialized (st : CState) : CState :=
  let ls := st.compiler.locals
  match ls.getLast? with
  | some l =>
    { st with compiler :=
        { st.compiler with
          locals := ls.set (ls.length - 1) { l with depth := st.compiler.scope_depth } } }
  | none => st

/-- define_variable of compiler.c. -/
def define_variable (global : Nat) (st : CState) : CState :=
  if st.compiler.scope_depth > 0 then mark_initialized st
  else emit_bytes OP_DEFINE_GLOBAL global st

/-- The ParseFn function pointers stored in the rules table, as tags
(`string_lit` is string(), `variable_fn` is variable(), `and_fn`/`or_fn`
are and_()/or_()). -/
inductive ParseFn where
  | grouping | unary | binary | number | string_lit | variable_fn
  | literal | and_fn | or_fn
deriving DecidableEq, Repr

/-- ParseRule of compiler.c. -/
structure ParseRule where
  prefix_fn : Option ParseFn
  infix_fn : Option ParseFn
  precedence : Nat
deriving DecidableEq, Repr

/-- The rules table of compiler.c, entry for entry. Note the TOKEN_OR
row: its precedence is PREC_NONE in the source (TOKEN_AND's is
PREC_AND). -/
def rules : TokenType → ParseRule
  | .LEFT_PAREN => ⟨some .grouping, none, PREC_NONE⟩
  | .RIGHT_PAREN => ⟨none, none, PREC_NONE⟩
  | .LEFT_BRACE => ⟨none, none, PREC_NONE⟩
  | .RIGHT_BRACE => ⟨none, none, PREC_NONE⟩
  | .COMMA => ⟨none, none, PREC_NONE⟩
  | .DOT => ⟨none, none, PREC_NONE⟩
  | .MINUS => ⟨some .unary, some .binary, PREC_TERM⟩
  | .PLUS => ⟨none, some .binary, PREC_TERM⟩
  | .SEMICOLON => ⟨none, none, PREC_NONE⟩
  | .SLASH => ⟨none, some .binary, PREC_FACTOR⟩
  | .STAR => ⟨none, some .binary, PREC_FACTOR⟩
  | .BANG => ⟨some .unary, none, PREC_NONE⟩
  | .BANG_EQUAL => ⟨none, some .binary, PREC_EQUALITY⟩
  | .GREATER => ⟨none, some .binary, PREC_COMPARISON⟩
  | .GREATER_EQUAL => ⟨none, some .binary, PREC_COMPARISON⟩
  | .LESS => ⟨none, some .binary, PREC_COMPARISON⟩
  | .LESS_EQUAL => ⟨none, some .binary, PREC_COMPARISON⟩
  | .EQUAL => ⟨none, none, PREC_NONE⟩
  | .EQUAL_EQUAL => ⟨none, some .binary, PREC_EQUALITY⟩
  | .IDENTIFIER => ⟨some .variable_fn, none, PREC_NONE⟩
  | .STRING => ⟨some .string_lit, none, PREC_NONE⟩
  | .NUMBER => ⟨some .number, none, PREC_NONE⟩
  | .AND => ⟨none, some .and_fn, PREC_AND⟩
  | .CLASS => ⟨none, none, PREC_NONE⟩
  | .ELSE => ⟨none, none, PREC_NONE⟩
  | .FALSE => ⟨some .literal, none, PREC_NONE⟩
  | .FOR => ⟨none, none, PREC_NONE⟩
  | .FUN => ⟨none, none, PREC_NONE⟩
  | .IF => ⟨none, none, PREC_NONE⟩
  | .NIL => ⟨some .literal, none, PREC_NONE⟩
  | .OR => ⟨none, some .or_fn, PREC_NONE⟩
  | .PRINT => ⟨none, none, PREC_NONE⟩
  | .RETURN => ⟨none, none, PREC_NONE⟩
  | .SUPER => ⟨none, none, PREC_NONE⟩
  | .THIS => ⟨none, none, PREC_NONE⟩
  | .TRUE => ⟨some .literal, none, PREC_NONE⟩
  | .VAR => ⟨none, none, PREC_NONE⟩
  | .WHILE => ⟨none, none, PREC_NONE⟩
  | .ERROR => ⟨none, none, PREC_NONE⟩
  | .EOF => ⟨none, none, PREC_NONE⟩

/-- get_rule of compiler.c. -/
def get_rule (type_ : TokenType) : ParseRule := rules type_

/-- The mutually recursive parse/emit functions of compiler.c,
defunctionalised so that one fuel-indexed interpreter `run` drives them:
each constructor stands for one C function (or one of its loops). -/
inductive PCall where
  | parse_precedence (prec : Nat)
  | infix_loop (prec : Nat) (can_assign : Bool)
  | run_prefix_fn (fn : ParseFn) (can_assign : Bool)
  | run_infix_fn (fn : ParseFn) (can_assign : Bool)
  | expression
  | block_loop
  | var_declaration
  | expression_statement
  | for_statement
  | if_statement
  | print_statement
  | while_statement
  | synchronize_loop
  | declaration
  | statement
  | declaration_loop
deriving DecidableEq, Repr

/-- The parser/emitter of compiler.c: one step interpreter over `PCall`.
Each case is the body of the named C function; recursion consumes a unit
of fuel (compile passes enough for any recursion the token stream can
drive; out of fuel the state is returned unchanged). -/
def run : Nat → PCall → CState → CState
  | 0, _, st => st
  | fuel + 1, call, st =>
    match call with
    | .parse_precedence prec =>
      let st := advance st
      match (get_rule st.parser.previous.type).prefix_fn with
      | none => error "Expect expression." st
      | some pfn =>
        let can_assign := prec ≤ PREC_ASSIGNMENT
        let st := run fuel (.run_prefix_fn pfn can_assign) st
        run fuel (.infix_loop prec can_assign) st
    | .infix_loop prec can_assign =>
      if prec ≤ (get_rule st.parser.current.type).precedence then
        let st := advance st
        let st :=
          match (get_rule st.parser.previous.type).infix_fn with
          | some ifn => run fuel (.run_infix_fn ifn can_assign) st
          | none => st
        let st :=
          if can_assign then
            let (m, st) := match_token .EQUAL st
            if m then error "Invalid assignment target." st else st
          else st
        run fuel (.infix_loop prec can_assign) st
      else st
    | .run_prefix_fn fn can_assign =>
      match fn with
      | .grouping =>
        let st := run fuel .expression st
        consume .RIGHT_PAREN "Expect ')' after expression." st
      | .number => emit_constant (.number st.parser.previous.text) st
      | .string_lit =>
        let text := st.parser.previous.text
        emit_constant (.str (String.mk ((text.toList.drop 1).take (text.length - 2)))) st
      | .literal =>
        match st.parser.previous.type with
        | .FALSE => emit_byte OP_FALSE st
        | .NIL => emit_byte OP_NIL st
        | .TRUE => emit_byte OP_TRUE st
        | _ => st
      | .variable_fn =>
        let name := st.parser.previous
        let (arg, st) := resolve_local st name
        let (get_op, set_op, arg, st) :=
          if arg ≠ -1 then (OP_GET_LOCAL, OP_SET_LOCAL, arg.toNat, st)
          else
            let (a, st) := identifier_constant name st
            (OP_GET_GLOBAL, OP_SET_GLOBAL, a, st)
        if can_assign then
          let (m, st) := match_token .EQUAL st
          if m then
            let st := run fuel .expression st
            emit_bytes set_op (arg % 256) st
          else emit_bytes get_op (arg % 256) st
        else emit_bytes get_op (arg % 256) st
      | .unary =>
        let operator_type := st.parser.previous.type
        let st := run fuel (.parse_precedence PREC_UNARY) st
        match operator_type with
        | .BANG => emit_byte OP_NOT st
        | .MINUS => emit_byte OP_NEGATE st
        | _ => st
      | _ => st
    | .run_infix_fn fn _ =>
      match fn with
      | .binary =>
        let operator_type := st.parser.previous.type
        let rule := get_rule operator_type
        let st := run fuel (.parse_precedence (rule.precedence + 1)) st
        match operator_type with
        | .BANG_EQUAL => emit_bytes OP_EQUAL OP_NOT st
        | .EQUAL_EQUAL => emit_byte OP_EQUAL st
        | .GREATER => emit_byte OP_GREATER st
        | .GREATER_EQUAL => emit_bytes OP_LESS OP_NOT st
        | .LESS => emit_byte OP_LESS st
        | .LESS_EQUAL => emit_bytes OP_GREATER OP_NOT st
        | .PLUS => emit_byte OP_ADD st
        | .MINUS => emit_byte OP_SUBTRACT st
        | .STAR => emit_byte OP_MULTIPLY st
        | .SLASH => emit_byte OP_DIVIDE st
        | _ => st
      | .and_fn =>
        let (end_jump, st) := emit_jump OP_JUMP_IF_FALSE st
        let st := emit_byte OP_POP st
        let st := run fuel (.parse_precedence PREC_AND) st
        patch_jump end_jump st
      | .or_fn =>
        let (else_jump, st) := emit_jump OP_JUMP_IF_FALSE st
        let (end_jump, st) := emit_jump OP_JUMP st
        let st := patch_jump else_jump st
        let st := emit_byte OP_POP st
        let st := run fuel (.parse_precedence PREC_OR) st
        patch_jump end_jump st
      | _ => st
    | .expression => run fuel (.parse_precedence PREC_ASSIGNMENT) st
    | .block_loop =>
      if ¬ check .RIGHT_BRACE st ∧ ¬ check .EOF st then
        let st := run fuel .declaration st
        run fuel .block_loop st
      else st
    | .var_declaration =>
      let (global, st) := parse_variable "Expect variable name" st
      let (m, st) := match_token .EQUAL st
      let st := if m then run fuel .expression st else emit_byte OP_NIL st
      let st := consume .SEMICOLON "Expect ';' after variable declaration." st
      define_variable global st
    | .expression_statement =>
      let st := run fuel .expression st
      let st := consume .SEMICOLON "Expect ';' after expression." st
      emit_byte OP_POP st
    | .for_statement =>
      let st := begin_scope st
      let st := consume .LEFT_PAREN "Expect '(' after 'for'." st
      let (m, st) := match_token .SEMICOLON st
      let st :=
        if m then st
        else
          let (mv, st) := match_token .VAR st
          if mv then run fuel .var_declaration st
          else run fuel .expression_statement st
      let loop_start := st.chunk.code.length
      let (ms, st) := match_token .SEMICOLON st
      let (exit_jump, st) :=
        if ¬ ms then
          let st := run fuel .expression st
          let st := consume .SEMICOLON "Expect ';' after loop condition." st
          let (j, st) := emit_jump OP_JUMP_IF_FALSE st
          let st := emit_byte OP_POP st
          (some j, st)
        else (none, st)
      let (mr, st) := match_token .RIGHT_PAREN st
      let (loop_start, st) :=
        if ¬ mr then
          let (body_jump, st) := emit_jump OP_JUMP st
          let increment_start := st.chunk.code.length
          let st := run fuel .expression st
          let st := emit_byte OP_POP st
          let st := consume .RIGHT_PAREN "Expect ')' after for clauses." st
          let st := emit_loop loop_start st
          let st := patch_jump body_jump st
          (increment_start, st)
        else (loop_start, st)
      let st := run fuel .statement st
      let st := emit_loop loop_start st
      let st :=
        match exit_jump with
        | some j => emit_byte OP_POP (patch_jump j st)
        | none => st
      end_scope st
    | .if_statement =>
      let st := consume .LEFT_PAREN "Expect '(' after 'if'." st
      let st := run fuel .expression st
      let st := consume .RIGHT_PAREN "Expect ')' after 'if'." st
      let (then_jump, st) := emit_jump OP_JUMP_IF_FALSE st
      let st := emit_byte OP_POP st
      let st := run fuel .statement st
      let (else_jump, st) := emit_jump OP_JUMP st
      let st := patch_jump then_jump st
      let st := emit_byte OP_POP st
      let (m, st) := match_token .ELSE st
      let st := if m then run fuel .statement st else st
      patch_jump else_jump st
    | .print_statement =>
      let st := run fuel .expression st
      let st := consume .SEMICOLON "Expect ';' after value." st
      emit_byte OP_PRINT st
    | .while_statement =>
      let loop_start := st.chunk.code.length
      let st := consume .LEFT_PAREN "Expect '(' after 'while'." st
      let st := run fuel .expression st
      let st := consume .RIGHT_PAREN "Expect ')' after condition." st
      let (exit_jump, st) := emit_jump OP_JUMP_IF_FALSE st
      let st := emit_byte OP_POP st
      let st := run fuel .statement st
      let st := emit_loop loop_start st
      let st := patch_jump exit_jump st
      emit_byte OP_POP st
    | .synchronize_loop =>
      if st.parser.current.type ≠ .EOF then
        if st.parser.previous.type = .SEMICOLON then st
        else
          match st.parser.current.type with
          | .CLASS | .FUN | .VAR | .FOR | .IF | .WHILE | .PRINT | .RETURN => st
          | _ => run fuel .synchronize_loop (advance st)
      else st
    | .declaration =>
      let (m, st) := match_token .VAR st
      let st := if m then run fuel .var_declaration st else run fuel .statement st
      if st.parser.panic_mode then
        run fuel .synchronize_loop
          { st with parser := { st.parser with panic_mode := false } }
      else st
    | .statement =>
      let (m, st) := match_token .PRINT st
      if m then run fuel .print_statement st
      else
        let (m, st) := match_token .FOR st
        if m then run fuel .for_statement st
        else
          let (m, st) := match_token .IF st
          if m then run fuel .if_statement st
          else
            let (m, st) := match_token .WHILE st
            if m then run fuel .while_statement st
            else
              let (m, st) := match_token .LEFT_BRACE st
              if m then
                let st := begin_scope st
                let st := run fuel .block_loop st
                let st := consume .RIGHT_BRACE "Expect '\x7d' after block." st
                end_scope st
              else run fuel .expression_statement st
    | .declaration_loop =>
      let (m, st) := match_token .EOF st
      if m then st
      else
        let st := run fuel .declaration st
        run fuel .declaration_loop st

/-- The token the parser state starts from (parser.current/previous are
uninitialised in C until the priming advance overwrites them). -/
def initToken : Token := { type := .ERROR, text := "", line := 0 }

/-- The initial compiler state for a source text: scanner over it,
cleared parser flags, empty chunk and no locals (init_compiler). -/
def initCState (source : String) : CState :=
  { scanner := Scanner.init_scanner source,
    parser := { current := initToken, previous := initToken,
                had_error := false, panic_mode := false },
    chunk := init_chunk,
    compiler := { locals := [], scope_depth := 0 },
    errors := [] }

/-- Fuel that bounds every recursion the token stream of `source` can
drive through `run` (each consumed token funds a bounded number of
calls). -/
def compile_fuel (source : String) : Nat :=
  8 * source.length + 64

/-- The front of compile of compiler.c: prime the parser with one
advance, loop declarations until EOF is matched, consume EOF. -/
def compile_decls (source : String) : CState :=
  let st := initCState source
  let st := advance st
  let st := run (compile_fuel source) .declaration_loop st
  consume .EOF "Except end of expression." st

/-- compile of compiler.c: the declaration loop, then end_compiler's
epilogue; the Bool result is `!parser.had_error`. -/
def compile (source : String) : Bool × CState :=
  let st := compile_decls source
  let st := end_compiler st
  (! st.parser.had_error, st)

/-!
The virtual machine of vm.c (the call-frame stage). Only the parts the
verified properties are about are embedded, each from its own function.
-/

/-- InterpretResult of vm.h. -/
inductive InterpretResult where
  | INTERPRET_OK | INTERPRET_COMPILE_ERROR | INTERPRET_RUNTIME_ERROR
deriving DecidableEq, Repr

/-- The outcome of one dispatch case of run(): fall to the next
instruction, or return from run() with an InterpretResult. -/
inductive StepResult (σ : Type) where
  | next (st : σ)
  | halt (r : InterpretResult) (st : σ)
deriving DecidableEq, Repr

namespace VMEq

/-- Value of value.h: the tagged union. The number payload (a C double)
is a type parameter `α` compared by the explicit functions handed to the
dispatch steps below, so IEEE comparison semantics are carried by the
parameter, never assumed; an object payload is its address, modelled as
an identity. -/
inductive Value (α : Type) where
  | bool (b : Bool)
  | nil
  | number (x : α)
  | obj (id : Nat)
deriving DecidableEq, Repr

/-- values_equal of value.c: different tags are unequal; same tag
compares the payloads (`==` on doubles is `aeq`, AS_OBJ pointer equality
is identity equality). -/
def values_equal (aeq : α → α → Bool) : Value α → Value α → Bool
  | .bool a, .bool b => a == b
  | .nil, .nil => true
  | .number a, .number b => aeq a b
  | .obj a, .obj b => a == b
  | _, _ => false

/-- is_falsey of vm.c: nil and false are falsy. -/
def is_falsey : Value α → Bool
  | .nil => true
  | .bool b => !b
  | _ => false

/-- One dispatch case of run() of vm.c for the opcodes the equality and
comparison properties use. OP_EQUAL pops b then a and pushes
`values_equal(a, b)`; OP_NOT pushes `is_falsey(pop())`; OP_GREATER and
OP_LESS are BINARY_OP(BOOL_VAL, >) and BINARY_OP(BOOL_VAL, <): both
operands must be numbers, else the runtime error "Operands must be
numbers.". `agt`/`alt` are `>`/`<` on the number payload. A stack too
short for an opcode cannot occur in the VM (the compiler balances the
stack); the model reports it as an error. -/
def runOp (aeq agt alt : α → α → Bool) (op : Nat) (stack : List (Value α)) :
    Except String (List (Value α)) :=
  if op = OP_EQUAL then
    match stack with
    | b :: a :: rest => .ok (.bool (values_equal aeq a b) :: rest)
    | _ => .error "stack underflow"
  else if op = OP_NOT then
    match stack with
    | v :: rest => .ok (.bool (is_falsey v) :: rest)
    | _ => .error "stack underflow"
  else if op = OP_GREATER then
    match stack with
    | .number b :: .number a :: rest => .ok (.bool (agt a b) :: rest)
    | _ :: _ :: _ => .error "Operands must be numbers."
    | _ => .error "stack underflow"
  else if op = OP_LESS then
    match stack with
    | .number b :: .number a :: rest => .ok (.bool (alt a b) :: rest)
    | _ :: _ :: _ => .error "Operands must be numbers."
    | _ => .error "stack underflow"
  else .error "opcode not modelled"

/-- Run a straight-line sequence of the modelled opcodes on a stack. -/
def runOps (aeq agt alt : α → α → Bool) :
    List Nat → List (Value α) → Except String (List (Value α))
  | [], stack => .ok stack
  | op :: ops, stack =>
    match runOp aeq agt alt op stack with
    | .ok stack' => runOps aeq agt alt ops stack'
    | .error e => .error e

end VMEq

namespace VMCall

/-- FRAMES_MAX of vm.h (the call-frame stage's vm.h; its value is stated
by the spec, the header being absent from the sources). -/
def FRAMES_MAX : Nat := 64

/-- ObjFunction of object.h: arity, upvalue count and the function's
chunk (only its code is relevant here; `ip` indexes into it). -/
structure ObjFunction where
  arity : Nat
  upvalue_count : Nat
  code : List Nat
deriving DecidableEq, Repr

/-- ObjClosure of object.h (the upvalue array is not involved in the
call path). -/
structure ObjClosure where
  function : ObjFunction
deriving DecidableEq, Repr

/-- Value as call_value of vm.c discriminates it: IS_OBJ plus OBJ_TYPE
select closures and natives; every other variant takes the non-callable
path. Payloads that call_value never reads (the number double, string
and upvalue contents) are reduced to identities. -/
inductive RValue where
  | nil
  | bool (b : Bool)
  | number
  | str (id : Nat)
  | function (f : ObjFunction)
  | upvalue (id : Nat)
  | closure (c : ObjClosure)
  | native (id : Nat)
deriving DecidableEq, Repr

/-- CallFrame of vm.h: the running closure, the instruction pointer (an
index into its function's code, 0 after call()), and the stack index of
slot 0 (the callee). -/
structure CallFrame where
  closure : ObjClosure
  ip : Nat
  slots : Nat
deriving DecidableEq, Repr

/-- The VM state the call path touches: the frame stack, the value stack
(index 0 is the bottom; stack_top is the length), and the messages
runtime_error has written to stderr. -/
structure VMState where
  frames : List CallFrame
  stack : List RValue
  errors : List String
deriving DecidableEq, Repr

/-- runtime_error of vm.c: print the message and the stack trace, then
reset_stack (stack_top back to the base, frame_count zero). -/
def runtime_error (st : VMState) (message : String) : VMState :=
  { frames := [], stack := [], errors := st.errors ++ [message] }

/-- peek of vm.c: `stack_top[-1 - distance]`. -/
def peek (st : VMState) (distance : Nat) : RValue :=
  st.stack.getD (st.stack.length - 1 - distance) .nil

/-- call of vm.c: arity check, then frame-stack overflow check, then
push a CallFrame with `ip` at the function's first byte and `slots` at
`stack_top - arg_count - 1`. -/
def call (st : VMState) (closure : ObjClosure) (arg_count : Nat) : Bool × VMState :=
  if arg_count ≠ closure.function.arity then
    (false, runtime_error st
      ("Expected " ++ toString closure.function.arity ++
        " arguments, but got " ++ toString arg_count ++ "."))
  else if st.frames.length = FRAMES_MAX then
    (false, runtime_error st "Stack overflow.")
  else
    (true,
      { st with frames := st.frames ++
          [{ closure := closure, ip := 0, slots := st.stack.length - arg_count - 1 }] })

/-- call_value of vm.c: dispatch on the callee. A native is applied to
the `arg_count` topmost values (the host function is the parameter
`nativeFn`), the callee and arguments are popped and its result pushed;
anything that is not a closure or native raises "Can only call functions
and classes.". -/
def call_value (nativeFn : Nat → List RValue → RValue) (st : VMState)
    (callee : RValue) (arg_count : Nat) : Bool × VMState :=
  match callee with
  | .closure c => call st c arg_count
  | .native f =>
    let args := st.stack.drop (st.stack.length - arg_count)
    let result := nativeFn f args
    let stack := st.stack.take (st.stack.length - (arg_count + 1))
    (true, { st with stack := stack ++ [result] })
  | _ => (false, runtime_error st "Can only call functions and classes.")

/-- The OP_CALL case of run() of vm.c: read `arg_count`, call the value
`arg_count` slots below the top; on failure run() returns
INTERPRET_RUNTIME_ERROR. -/
def op_call (nativeFn : Nat → List RValue → RValue) (st : VMState)
    (arg_count : Nat) : StepResult VMState :=
  let (ok, st') := call_value nativeFn st (peek st arg_count) arg_count
  if ok then .next st' else .halt .INTERPRET_RUNTIME_ERROR st'

end VMCall

namespace Globals

/-- table_get of table.c, over the key-to-value map that the
open-addressing table implements (find_entry compares interned-string
keys by pointer, which interning makes content equality; tombstones and
probing are the mechanism, the map below their observable content). -/
def table_get (table : List (String × α)) (key : String) : Option α :=
  (table.find? (fun e => e.1 == key)).map (·.2)

/-- table_set of table.c: overwrite when the key is present, insert when
absent; returns is_new_key. -/
def table_set (table : List (String × α)) (key : String) (value : α) :
    Bool × List (String × α) :=
  match table_get table key with
  | some _ => (false, table.map (fun e => if e.1 = key then (key, value) else e))
  | none => (true, (key, value) :: table)

/-- table_delete of table.c: the entry for the key is tombstoned, so the
map loses it. -/
def table_delete (table : List (String × α)) (key : String) :
    List (String × α) :=
  table.filter (fun e => e.1 != key)

/-- The VM state the two global-variable opcodes touch: the globals
table, the value stack (head is the top), and the runtime_error
messages. -/
structure GState (α : Type) where
  globals : List (String × α)
  stack : List α
  errors : List String
deriving DecidableEq, Repr

/-- The OP_SET_GLOBAL case of run() of vm.c: table_set with peek(0); if
the key was new the variable was undefined — delete the just-inserted
entry, raise "Undefined variable 'NAME'." (runtime_error resets the
stack) and return INTERPRET_RUNTIME_ERROR. The value is not popped on
success (assignment is an expression). An empty stack cannot reach this
opcode. -/
def op_set_global (st : GState α) (name : String) : StepResult (GState α) :=
  match st.stack with
  | value :: _ =>
    let (is_new, globals) := table_set st.globals name value
    if is_new then
      let globals := table_delete globals name
      .halt .INTERPRET_RUNTIME_ERROR
        { globals := globals, stack := [],
          errors := st.errors ++ ["Undefined variable '" ++ name ++ "'."] }
    else .next { st with globals := globals }
  | [] => .next st

/-- The OP_DEFINE_GLOBAL case of run() of vm.c: table_set with peek(0) —
its is_new result is ignored — then pop. An empty stack cannot reach
this opcode. -/
def op_define_global (st : GState α) (name : String) : StepResult (GState α) :=
  match st.stack with
  | value :: rest =>
    let (_is_new, globals) := table_set st.globals name value
    .next { st with globals := globals, stack := rest }
  | [] => .next st

end Globals

namespace Intern

/-- ObjString of object.h: `id` stands for the allocation's address (the
identity of the heap object); `chars` is the byte content. The length
and FNV-1a hash fields are functions of `chars` and are compared through
it. -/
structure StrObj where
  id : Nat
  chars : String
deriving DecidableEq, Repr

/-- The string-related VM heap state: the vm.objects list, the
vm.strings intern table (as the set of its keys, which is what
table_find_string and table_set(…, NIL_VAL) maintain), the part of the
value stack concatenate touches, and the next fresh address. -/
structure Heap where
  objects : List StrObj
  strings : List StrObj
  stack : List StrObj
  nextId : Nat
deriving DecidableEq, Repr

/-- table_find_string of table.c: the interned string with the given
byte content, if any (the C code compares length, hash and memcmp — all
determined by the content). -/
def table_find_string (strings : List StrObj) (chars : String) : Option StrObj :=
  strings.find? (fun s => s.chars == chars)

/-- copy_string of object.c: return the already-interned object when one
with equal content exists; otherwise reserve_string a fresh object
(linking it into vm.objects), copy the bytes and intern it. -/
def copy_string (h : Heap) (chars : String) : StrObj × Heap :=
  match table_find_string h.strings chars with
  | some interned => (interned, h)
  | none =>
    let string_obj : StrObj := { id := h.nextId, chars := chars }
    let h := { h with objects := string_obj :: h.objects, nextId := h.nextId + 1 }
    (string_obj, { h with strings := string_obj :: h.strings })

/-- concatenate of vm.c: remember the object-list head, pop b then a,
build the concatenation in a fresh reserve_string object (linked into
vm.objects), then look it up in the intern table: if an equal string is
already interned, free the fresh object, restore the object-list head
and push the interned one; otherwise intern the fresh object and push
it. -/
def concatenate (h : Heap) : Heap :=
  let objects_list_head := h.objects
  match h.stack with
  | b :: a :: rest =>
    let chars := a.chars ++ b.chars
    let result : StrObj := { id := h.nextId, chars := chars }
    let h1 := { h with objects := result :: h.objects, nextId := h.nextId + 1 }
    match table_find_string h1.strings chars with
    | some interned =>
      { h1 with objects := objects_list_head, stack := interned :: rest }
    | none =>
      { h1 with strings := result :: h1.strings, stack := result :: rest }
  | _ => h

/-- The interning invariant: the intern table holds at most one object
per byte content, and every live string object (on the object list or
the stack) is interned. -/
def WellInterned (h : Heap) : Prop :=
  (∀ s ∈ h.strings, ∀ t ∈ h.strings, s.chars = t.chars → s = t)
  ∧ (∀ s ∈ h.objects, s ∈ h.strings)
  ∧ (∀ s ∈ h.stack, s ∈ h.strings)

instance (h : Heap) : Decidable (WellInterned h) := by
  unfold WellInterned
  infer_instance

end Intern

/-!
Theorems. Helper lemmas about the table model come first; then one
theorem per claim, each with its witness or counterexample where
required.
-/

/-- Deleting a key from the globals table removes its entry: a get of
that key afterwards misses. -/
theorem table_get_delete_self {α : Type} (t : List (String × α)) (k : String) :
    Globals.table_get (Globals.table_delete t k) k = none := by
  have hnone : List.find? (fun e => e.1 == k) (List.filter (fun e => e.1 != k) t) = none := by
    rw [List.find?_eq_none]
    intro x hx
    have hne := (List.mem_filter.mp hx).2
    simpa using hne
  simp [Globals.table_get, Globals.table_delete, hnone]

/-- Deleting a key that has no entry leaves the table unchanged. -/
theorem table_delete_absent {α : Type} (t : List (String × α)) (k : String)
    (h : Globals.table_get t k = none) : Globals.table_delete t k = t := by
  have hf : List.find? (fun e => e.1 == k) t = none := by
    cases hfind : List.find? (fun e => e.1 == k) t with
    | none => rfl
    | some e => rw [Globals.table_get, hfind] at h; simp at h
  rw [Globals.table_delete, List.filter_eq_self]
  intro e he
  have := List.find?_eq_none.mp hf e he
  simpa using this

/-- Overwriting a present key (table_set's update branch) makes a get of
that key return the new value. -/
theorem table_get_map_update {α : Type} (t : List (String × α)) (k : String) (v : α)
    (h : (Globals.table_get t k).isSome) :
    Globals.table_get (t.map (fun e => if e.1 = k then (k, v) else e)) k = some v := by
  induction t with
  | nil => simp [Globals.table_get] at h
  | cons e rest ih =>
    by_cases he : e.1 = k
    · have hfind := List.find?_cons_of_pos (p := fun x : String × α => x.1 == k)
        (a := (k, v)) (List.map (fun e => if e.1 = k then (k, v) else e) rest) (by simp)
      simp only [List.map_cons, if_pos he]
      rw [Globals.table_get, hfind]
      rfl
    · have hbeq : ¬ ((fun x : String × α => x.1 == k) e = true) := by simp [he]
      have hfe : (if e.1 = k then (k, v) else e) = e := if_neg he
      have hfind := List.find?_cons_of_neg (p := fun x : String × α => x.1 == k)
        (a := e) rest hbeq
      have h' : (Globals.table_get rest k).isSome := by
        rw [Globals.table_get, hfind] at h
        exact h
      have hfind2 := List.find?_cons_of_neg (p := fun x : String × α => x.1 == k)
        (a := e) (List.map (fun e => if e.1 = k then (k, v) else e) rest) hbeq
      simp only [List.map_cons, hfe]
      rw [Globals.table_get, hfind2]
      exact ih h'

/-- C1: the claim says every `e1 or e2` expression compiles without a
compile error, lowering `or` as an infix operator. In the source's rules
table TOKEN_OR's precedence is PREC_NONE, so parse_precedence's infix
loop (which fires only for precedence at least PREC_ASSIGNMENT = 1)
never invokes or_; compiling the statement `1 or 2;` leaves `or` in the
stream and fails with "Expect ';' after expression.". This theorem
evaluates the compiler at that failing input. -/
theorem clox_C1_or_infix_unreachable :
    (get_rule .OR).precedence = PREC_NONE ∧
    (compile "1 or 2;").1 = false ∧
    (compile "1 or 2;").2.errors = ["Expect ';' after expression."] := by decide

/-- C2 counterexample: the claim says a successful top-level compilation
ends with the two-opcode epilogue OP_NIL; OP_RETURN and that compile
returns a Function. At the concrete program `1;`, compile succeeds
(returning the boolean true, not a Function) and the emitted code ends
in OP_POP; OP_RETURN — the byte before the final OP_RETURN is OP_POP,
not OP_NIL. -/
theorem clox_C2_epilogue_counterexample :
    (compile "1;").1 = true ∧
    (compile "1;").2.chunk.code = [OP_CONSTANT, 0, OP_POP, OP_RETURN] ∧
    OP_POP ≠ OP_NIL := by decide

/-- C2 (amended): at the end of every top-level compilation the compiler
emits the one-opcode epilogue OP_RETURN after the declaration loop (and
the EOF consume), and compile returns a boolean that is true exactly
when no compile error was recorded. -/
theorem clox_C2_epilogue_amended (source : String) :
    ∃ st_final : CState, compile source = (!st_final.parser.had_error, st_final) ∧
      st_final.chunk.code = (compile_decls source).chunk.code ++ [OP_RETURN] :=
  ⟨end_compiler (compile_decls source), rfl, rfl⟩

/-- C3: the claim says scan_token skips whitespace and `//` comments and
then classifies the next lexeme, so after a comment ending in a newline
the next valid lexeme's token is returned. In the source,
skip_whitespace's `'/'` case falls through (missing break) to
`default: return;` after consuming the comment body, leaving the
newline unconsumed; the scan then classifies `'\n'` itself and returns
TOKEN_ERROR "Unexpected character." instead of the identifier `x` that
follows — which only the scan after the erroneous one returns. -/
theorem clox_C3_comment_scan_bug :
    (Scanner.scan_token (Scanner.init_scanner "// c\nx")).1.type = .ERROR ∧
    (Scanner.scan_token (Scanner.init_scanner "// c\nx")).1.text = "Unexpected character." ∧
    (Scanner.scan_token (Scanner.scan_token (Scanner.init_scanner "// c\nx")).2).1.type
      = .IDENTIFIER := by decide

/-- C4: the claim says that whenever an expression is parsed with
can_assign true and the parsed target does not consume a following `=`,
the compiler reports "Invalid assignment target." — including for
`1 = 2;`. In the source the check sits inside parse_precedence's infix
loop, after an infix rule has run; for `1 = 2;` the loop never iterates
(TOKEN_EQUAL's precedence is PREC_NONE), so the compiler instead
reports "Expect ';' after expression.". The check does fire where an
infix rule ran, as `a + b = c;` shows. -/
theorem clox_C4_assignment_target_bug :
    (compile "1 = 2;").2.errors = ["Expect ';' after expression."] ∧
    "Invalid assignment target." ∉ (compile "1 = 2;").2.errors ∧
    (compile "a + b = c;").2.errors = ["Invalid assignment target."] := by decide

/-- C5: the intern table holds exactly one ObjString per distinct byte
content. copy_string returns the already-interned object whenever one
with equal content exists (and leaves the heap unchanged); otherwise it
interns a fresh object, preserving the invariant. concatenate, when the
concatenation's content is already interned, discards the freshly built
object — restoring the object-list head — and pushes the interned one;
it preserves the invariant in both branches. Consequently any two live
strings (on the object list or the stack) with identical bytes are the
same heap object. -/
theorem clox_C5_intern_unique (h : Intern.Heap) (chars : String)
    (hw : Intern.WellInterned h) :
    (∀ s, Intern.table_find_string h.strings chars = some s →
      Intern.copy_string h chars = (s, h)) ∧
    ((Intern.copy_string h chars).1.chars = chars ∧
      (Intern.copy_string h chars).1 ∈ (Intern.copy_string h chars).2.strings ∧
      Intern.WellInterned (Intern.copy_string h chars).2) ∧
    (∀ b a rest t, h.stack = b :: a :: rest →
      Intern.table_find_string h.strings (a.chars ++ b.chars) = some t →
      Intern.concatenate h = { h with stack := t :: rest, nextId := h.nextId + 1 }) ∧
    Intern.WellInterned (Intern.concatenate h) ∧
    (∀ x y, (x ∈ h.objects ∨ x ∈ h.stack) → (y ∈ h.objects ∨ y ∈ h.stack) →
      x.chars = y.chars → x = y) := by
  obtain ⟨objs, strs, stk, nid⟩ := h
  obtain ⟨hw1, hw2, hw3⟩ := hw
  refine ⟨?_, ?_, ?_, ?_, ?_⟩
  · intro s hf
    simp only [Intern.copy_string]
    rw [hf]
  · cases hf : Intern.table_find_string strs chars with
    | some s =>
      have hpred := List.find?_some hf
      have hmem := List.mem_of_find?_eq_some hf
      simp only [Intern.copy_string]
      rw [hf]
      exact ⟨by simpa using hpred, hmem, hw1, hw2, hw3⟩
    | none =>
      have hnone := List.find?_eq_none.mp hf
      simp only [Intern.copy_string]
      rw [hf]
      refine ⟨rfl, List.mem_cons_self _ _, ?_, ?_, ?_⟩
      · intro s hs t ht heq
        rcases List.mem_cons.mp hs with hs1 | hs2
        · rcases List.mem_cons.mp ht with ht1 | ht2
          · rw [hs1, ht1]
          · exfalso
            apply hnone t ht2
            rw [hs1] at heq
            simp [← heq]
        · rcases List.mem_cons.mp ht with ht1 | ht2
          · exfalso
            apply hnone s hs2
            rw [ht1] at heq
            simp [heq]
          · exact hw1 s hs2 t ht2 heq
      · intro s hs
        rcases List.mem_cons.mp hs with hs1 | hs2
        · rw [hs1]; exact List.mem_cons_self _ _
        · exact List.mem_cons_of_mem _ (hw2 s hs2)
      · intro s hs
        exact List.mem_cons_of_mem _ (hw3 s hs)
  · intro b a rest t hstack hfind
    subst hstack
    simp only [Intern.concatenate]
    rw [hfind]
  · cases hstk : stk with
    | nil =>
      subst hstk
      exact ⟨hw1, hw2, hw3⟩
    | cons b tl =>
      cases htl : tl with
      | nil =>
        subst htl; subst hstk
        exact ⟨hw1, hw2, hw3⟩
      | cons a rest =>
        subst htl; subst hstk
        cases hfind : Intern.table_find_string strs (a.chars ++ b.chars) with
        | some t =>
          have hmem := List.mem_of_find?_eq_some hfind
          simp only [Intern.concatenate]
          rw [hfind]
          refine ⟨hw1, hw2, ?_⟩
          intro s hs
          rcases List.mem_cons.mp hs with hs1 | hs2
          · rw [hs1]; exact hmem
          · exact hw3 s (List.mem_cons_of_mem _ (List.mem_cons_of_mem _ hs2))
        | none =>
          have hnone := List.find?_eq_none.mp hfind
          simp only [Intern.concatenate]
          rw [hfind]
          refine ⟨?_, ?_, ?_⟩
          · intro s hs t ht heq
            rcases List.mem_cons.mp hs with hs1 | hs2
            · rcases List.mem_cons.mp ht with ht1 | ht2
              · rw [hs1, ht1]
              · exfalso
                apply hnone t ht2
                rw [hs1] at heq
                simp [← heq]
            · rcases List.mem_cons.mp ht with ht1 | ht2
              · exfalso
                apply hnone s hs2
                rw [ht1] at heq
                simp [heq]
              · exact hw1 s hs2 t ht2 heq
          · intro s hs
            rcases List.mem_cons.mp hs with hs1 | hs2
            · rw [hs1]; exact List.mem_cons_self _ _
            · exact List.mem_cons_of_mem _ (hw2 s hs2)
          · intro s hs
            rcases List.mem_cons.mp hs with hs1 | hs2
            · rw [hs1]; exact List.mem_cons_self _ _
            · exact List.mem_cons_of_mem _
                (hw3 s (List.mem_cons_of_mem _ (List.mem_cons_of_mem _ hs2)))
  · intro x y hx hy heq
    have hxs : x ∈ strs := by
      rcases hx with hx1 | hx2
      · exact hw2 x hx1
      · exact hw3 x hx2
    have hys : y ∈ strs := by
      rcases hy with hy1 | hy2
      · exact hw2 y hy1
      · exact hw3 y hy2
    exact hw1 x hxs y hys heq

/-- C5 witness: a concrete well-interned heap with "a", "b" and "ab"
interned and "b", "a" on the stack; concatenating yields the
already-interned "ab" object and restores the object list. -/
theorem clox_C5_intern_unique_witness :
    Intern.WellInterned ⟨[⟨0, "ab"⟩, ⟨1, "b"⟩, ⟨2, "a"⟩], [⟨0, "ab"⟩, ⟨1, "b"⟩, ⟨2, "a"⟩],
      [⟨1, "b"⟩, ⟨2, "a"⟩], 3⟩ ∧
    Intern.concatenate ⟨[⟨0, "ab"⟩, ⟨1, "b"⟩, ⟨2, "a"⟩], [⟨0, "ab"⟩, ⟨1, "b"⟩, ⟨2, "a"⟩],
      [⟨1, "b"⟩, ⟨2, "a"⟩], 3⟩ =
      ⟨[⟨0, "ab"⟩, ⟨1, "b"⟩, ⟨2, "a"⟩], [⟨0, "ab"⟩, ⟨1, "b"⟩, ⟨2, "a"⟩], [⟨0, "ab"⟩], 4⟩ := by
  refine ⟨by decide, ?_⟩
  have := (clox_C5_intern_unique
      ⟨[⟨0, "ab"⟩, ⟨1, "b"⟩, ⟨2, "a"⟩], [⟨0, "ab"⟩, ⟨1, "b"⟩, ⟨2, "a"⟩],
        [⟨1, "b"⟩, ⟨2, "a"⟩], 3⟩ "ab" (by decide)).2.2.1
      ⟨1, "b"⟩ ⟨2, "a"⟩ [] ⟨0, "ab"⟩ rfl (by decide)
  exact this

/-- C6: executing OP_SET_GLOBAL with a name that has no entry in the
globals table raises exactly "Undefined variable 'NAME'.", makes the
dispatch loop return INTERPRET_RUNTIME_ERROR, and afterwards the
globals table still has no entry for that name (the membership probe's
insertion is deleted before the error is raised — indeed the table is
exactly what it was). -/
theorem clox_C6_set_global_undefined {α : Type} (st : Globals.GState α) (name : String)
    (v : α) (rest : List α) (hstack : st.stack = v :: rest)
    (habsent : Globals.table_get st.globals name = none) :
    ∃ st', Globals.op_set_global st name = .halt .INTERPRET_RUNTIME_ERROR st' ∧
      st'.errors = st.errors ++ ["Undefined variable '" ++ name ++ "'."] ∧
      Globals.table_get st'.globals name = none ∧
      st'.globals = st.globals := by
  have hdel : Globals.table_delete ((name, v) :: st.globals) name = st.globals := by
    have hfilter := List.filter_cons_of_neg (p := fun e : String × α => e.1 != name)
      (a := (name, v)) (l := st.globals) (by simp)
    rw [Globals.table_delete, hfilter]
    have hrest := table_delete_absent st.globals name habsent
    rwa [Globals.table_delete] at hrest
  refine ⟨{ globals := st.globals, stack := [],
            errors := st.errors ++ ["Undefined variable '" ++ name ++ "'."] }, ?_, rfl,
          habsent, rfl⟩
  rw [Globals.op_set_global, hstack]
  simp only [Globals.table_set, habsent]
  simp [hdel]

/-- C6 witness: assigning to the undefined global "y" with globals
holding only "x" raises the runtime error and leaves the table without
a "y" entry. -/
theorem clox_C6_set_global_undefined_witness :
    ∃ st', Globals.op_set_global (α := Nat) ⟨[("x", 7)], [5], []⟩ "y" =
        .halt .INTERPRET_RUNTIME_ERROR st' ∧
      st'.errors = ["Undefined variable 'y'."] ∧
      Globals.table_get st'.globals "y" = none ∧ st'.globals = [("x", 7)] :=
  clox_C6_set_global_undefined ⟨[("x", 7)], [5], []⟩ "y" 5 [] rfl (by decide)

/-- C7: invoking a closure with the wrong argument count raises exactly
"Expected N arguments, but got M." (N the arity, M the count); with the
frame stack at FRAMES_MAX it raises exactly "Stack overflow."; in both
failure cases no new frame exists afterwards and the OP_CALL dispatch
returns INTERPRET_RUNTIME_ERROR; otherwise a new CallFrame is pushed
whose slots base is stack_top - argc - 1 and whose ip is the function's
first byte. call_value dispatches a closure callee to call. -/
theorem clox_C7_call_arity_overflow (nativeFn : Nat → List VMCall.RValue → VMCall.RValue)
    (st : VMCall.VMState) (c : VMCall.ObjClosure) (argc : Nat) :
    (argc ≠ c.function.arity →
      VMCall.call st c argc =
        (false, ⟨[], [], st.errors ++
          ["Expected " ++ toString c.function.arity ++ " arguments, but got " ++
            toString argc ++ "."]⟩)) ∧
    (argc = c.function.arity → st.frames.length = VMCall.FRAMES_MAX →
      VMCall.call st c argc =
        (false, ⟨[], [], st.errors ++ ["Stack overflow."]⟩)) ∧
    (argc = c.function.arity → st.frames.length ≠ VMCall.FRAMES_MAX →
      VMCall.call st c argc =
        (true, { st with frames := st.frames ++
            [{ closure := c, ip := 0, slots := st.stack.length - argc - 1 }] })) ∧
    VMCall.call_value nativeFn st (.closure c) argc = VMCall.call st c argc ∧
    (∀ ok st', VMCall.call_value nativeFn st (VMCall.peek st argc) argc = (ok, st') →
      VMCall.op_call nativeFn st argc =
        if ok then .next st' else .halt .INTERPRET_RUNTIME_ERROR st') := by
  refine ⟨?_, ?_, ?_, rfl, ?_⟩
  · intro h
    simp [VMCall.call, VMCall.runtime_error, h]
  · intro h1 h2
    simp [VMCall.call, VMCall.runtime_error, h1, h2]
  · intro h1 h2
    simp [VMCall.call, h1, h2]
  · intro ok st' h
    rw [VMCall.op_call, h]

/-- C7 witness: an arity-2 closure called with 1 argument, a call with
the frame stack full, and a successful zero-argument call whose frame's
slots base is stack_top - 0 - 1 = 0 (the callee's slot). -/
theorem clox_C7_call_arity_overflow_witness :
    VMCall.call ⟨[], [], []⟩ ⟨⟨2, 0, []⟩⟩ 1 =
      (false, ⟨[], [], ["Expected 2 arguments, but got 1."]⟩) ∧
    VMCall.call ⟨List.replicate 64 ⟨⟨0, 0, []⟩, 0, 0⟩, [], []⟩ ⟨⟨0, 0, []⟩⟩ 0 =
      (false, ⟨[], [], ["Stack overflow."]⟩) ∧
    VMCall.call ⟨[], [VMCall.RValue.closure ⟨⟨0, 0, []⟩⟩], []⟩ ⟨⟨0, 0, []⟩⟩ 0 =
      (true, ⟨[⟨⟨⟨0, 0, []⟩⟩, 0, 0⟩], [VMCall.RValue.closure ⟨⟨0, 0, []⟩⟩], []⟩) := by
  refine ⟨?_, ?_, ?_⟩
  · exact (clox_C7_call_arity_overflow (fun _ _ => .nil) ⟨[], [], []⟩ ⟨⟨2, 0, []⟩⟩ 1).1
      (by decide)
  · exact (clox_C7_call_arity_overflow (fun _ _ => .nil)
      ⟨List.replicate 64 ⟨⟨0, 0, []⟩, 0, 0⟩, [], []⟩ ⟨⟨0, 0, []⟩⟩ 0).2.1 (by decide) (by decide)
  · exact (clox_C7_call_arity_overflow (fun _ _ => .nil)
      ⟨[], [VMCall.RValue.closure ⟨⟨0, 0, []⟩⟩], []⟩ ⟨⟨0, 0, []⟩⟩ 0).2.2.1 (by decide)
      (by decide)

/-- C8: add_constant appends the value to the constant pool and returns
its zero-based index (the old pool length) without touching the code;
constant emission (write_constant of chunk.c and emit_constant of
compiler.c) uses OP_CONSTANT with one operand byte when the index is at
most 255, and otherwise OP_CONSTANT_LONG followed by exactly three
bytes which, for every index representable in 24 bits, are its
big-endian base-256 digits. -/
theorem clox_C8_constant_encoding (chunk : Chunk) (value : CValue) (line : Nat)
    (st : CState) :
    (add_constant chunk value).1 = chunk.constants.length ∧
    (add_constant chunk value).2.constants = chunk.constants ++ [value] ∧
    (add_constant chunk value).2.code = chunk.code ∧
    (chunk.constants.length ≤ 255 →
      (write_constant chunk value line).code =
        chunk.code ++ [OP_CONSTANT, chunk.constants.length]) ∧
    (255 < chunk.constants.length → chunk.constants.length < 2 ^ 24 →
      (write_constant chunk value line).code =
        chunk.code ++ [OP_CONSTANT_LONG, chunk.constants.length / 65536,
          chunk.constants.length / 256 % 256, chunk.constants.length % 256] ∧
      chunk.constants.length / 65536 * 65536 + chunk.constants.length / 256 % 256 * 256 +
        chunk.constants.length % 256 = chunk.constants.length ∧
      chunk.constants.length / 65536 < 256) ∧
    (st.chunk.constants.length ≤ 255 →
      (emit_constant value st).chunk.code =
        st.chunk.code ++ [OP_CONSTANT, st.chunk.constants.length]) ∧
    (255 < st.chunk.constants.length →
      (emit_constant value st).chunk.code =
        st.chunk.code ++ [OP_CONSTANT_LONG, (st.chunk.constants.length >>> 16) % 256,
          (st.chunk.constants.length >>> 8) % 256, st.chunk.constants.length % 256]) := by
  refine ⟨by simp [add_constant], by simp [add_constant], by simp [add_constant],
    ?_, ?_, ?_, ?_⟩
  · intro h
    have hmod : chunk.constants.length % 256 = chunk.constants.length :=
      Nat.mod_eq_of_lt (by omega)
    simp [write_constant, add_constant, write_chunk, h, hmod]
  · intro h h24
    have hs16 : chunk.constants.length >>> 16 = chunk.constants.length / 65536 := by
      rw [Nat.shiftRight_eq_div_pow]
    have hs8 : chunk.constants.length >>> 8 = chunk.constants.length / 256 := by
      rw [Nat.shiftRight_eq_div_pow]
    have hlt : chunk.constants.length / 65536 < 256 := by omega
    have hmod16 : chunk.constants.length / 65536 % 256 = chunk.constants.length / 65536 :=
      Nat.mod_eq_of_lt hlt
    refine ⟨?_, by omega, hlt⟩
    simp [write_constant, add_constant, write_chunk, Nat.not_le.mpr h, hs16, hs8, hmod16]
  · intro h
    have hmod : st.chunk.constants.length % 256 = st.chunk.constants.length :=
      Nat.mod_eq_of_lt (by omega)
    simp [emit_constant, make_constant, add_constant, emit_bytes, emit_byte, write_chunk,
      h, hmod]
  · intro h
    simp [emit_constant, make_constant, add_constant, emit_bytes, emit_byte, write_chunk,
      Nat.not_le.mpr h]

set_option maxRecDepth 8192 in
/-- C8 witness: an empty pool takes the OP_CONSTANT encoding at index 0;
a pool of 256 constants takes OP_CONSTANT_LONG with the big-endian
bytes 0, 1, 0 for index 256. -/
theorem clox_C8_constant_encoding_witness :
    (write_constant ⟨[], [], []⟩ (.number "1") 1).code = [OP_CONSTANT, 0] ∧
    (write_constant ⟨[], [], List.replicate 256 (.number "0")⟩ (.number "1") 1).code =
      [OP_CONSTANT_LONG, 0, 1, 0] := by
  constructor
  · exact (clox_C8_constant_encoding ⟨[], [], []⟩ (.number "1") 1 (initCState "")).2.2.2.1
      (by decide)
  · exact ((clox_C8_constant_encoding ⟨[], [], List.replicate 256 (.number "0")⟩
      (.number "1") 1 (initCState "")).2.2.2.2.1 (by decide) (by decide)).1

/-- C9: OP_EQUAL followed by OP_NOT pushes exactly the boolean negation
of what OP_EQUAL alone pushes, for every pair of Values and any
equality on the number payload; within numbers, OP_GREATER (resp.
OP_LESS) followed by OP_NOT pushes the negation of OP_GREATER (resp.
OP_LESS) alone — and the compiler lowers `!=` to OP_EQUAL; OP_NOT, `<=`
to OP_GREATER; OP_NOT and `>=` to OP_LESS; OP_NOT, as the three
compiled programs show. -/
theorem clox_C9_equality_negation {α : Type} (aeq agt alt : α → α → Bool)
    (a b : VMEq.Value α) (x y : α) (s : List (VMEq.Value α)) :
    VMEq.runOps aeq agt alt [OP_EQUAL, OP_NOT] (b :: a :: s)
      = .ok (.bool (!(VMEq.values_equal aeq a b)) :: s) ∧
    VMEq.runOps aeq agt alt [OP_EQUAL] (b :: a :: s)
      = .ok (.bool (VMEq.values_equal aeq a b) :: s) ∧
    VMEq.runOps aeq agt alt [OP_GREATER, OP_NOT] (.number y :: .number x :: s)
      = .ok (.bool (!(agt x y)) :: s) ∧
    VMEq.runOps aeq agt alt [OP_GREATER] (.number y :: .number x :: s)
      = .ok (.bool (agt x y) :: s) ∧
    VMEq.runOps aeq agt alt [OP_LESS, OP_NOT] (.number y :: .number x :: s)
      = .ok (.bool (!(alt x y)) :: s) ∧
    VMEq.runOps aeq agt alt [OP_LESS] (.number y :: .number x :: s)
      = .ok (.bool (alt x y) :: s) ∧
    (compile "1 != 2;").2.chunk.code
      = [OP_CONSTANT, 0, OP_CONSTANT, 1, OP_EQUAL, OP_NOT, OP_POP, OP_RETURN] ∧
    (compile "1 <= 2;").2.chunk.code
      = [OP_CONSTANT, 0, OP_CONSTANT, 1, OP_GREATER, OP_NOT, OP_POP, OP_RETURN] ∧
    (compile "1 >= 2;").2.chunk.code
      = [OP_CONSTANT, 0, OP_CONSTANT, 1, OP_LESS, OP_NOT, OP_POP, OP_RETURN] := by
  refine ⟨?_, ?_, ?_, ?_, ?_, ?_, by decide, by decide, by decide⟩ <;>
    simp [VMEq.runOps, VMEq.runOp, VMEq.is_falsey,
      OP_EQUAL, OP_NOT, OP_GREATER, OP_LESS]

/-- C10: OP_DEFINE_GLOBAL on a name that already has a binding is not an
error: table_set reports the key as not new (a result the dispatch
ignores), the existing value is overwritten with the initializer, the
initializer is popped, and execution continues with no error
recorded. -/
theorem clox_C10_define_global_redefines {α : Type} (st : Globals.GState α) (name : String)
    (v old : α) (rest : List α) (hstack : st.stack = v :: rest)
    (hpresent : Globals.table_get st.globals name = some old) :
    (Globals.table_set st.globals name v).1 = false ∧
    ∃ st', Globals.op_define_global st name = .next st' ∧ st'.stack = rest ∧
      Globals.table_get st'.globals name = some v ∧ st'.errors = st.errors := by
  constructor
  · rw [Globals.table_set, hpresent]
  · refine ⟨{ st with
        globals := st.globals.map (fun e => if e.1 = name then (name, v) else e),
        stack := rest }, ?_, rfl, ?_, rfl⟩
    · rw [Globals.op_define_global, hstack]
      simp only [Globals.table_set, hpresent]
    · exact table_get_map_update st.globals name v (by rw [hpresent]; rfl)

/-- C10 witness: redefining the global "x" (bound to 1) with the value 2
succeeds, pops the initializer and rebinds "x" to 2. -/
theorem clox_C10_define_global_redefines_witness :
    (Globals.table_set [("x", 1)] "x" 2).1 = false ∧
    ∃ st', Globals.op_define_global (α := Nat) ⟨[("x", 1)], [2, 9], []⟩ "x" = .next st' ∧
      st'.stack = [9] ∧ Globals.table_get st'.globals "x" = some 2 ∧ st'.errors = [] :=
  clox_C10_define_global_redefines ⟨[("x", 1)], [2, 9], []⟩ "x" 2 1 [9] rfl (by decide)

end Clox
